import Mathlib

set_option maxRecDepth 40000

/-!
Shallow embedding of `jvanalysis.py`.

Python floats are modelled as exact rationals; a Python exception (or the
`print` + `exit()` path) is modelled as `Option.none`.  `numpy.interp` is
modelled after the C implementation in numpy `compiled_base.c`
(`arr_interp` with `binary_search_with_guess`); the script always calls it
with the single scalar `x = 0`, so the search guess is the initial `0`.
-/

/-- A JV sweep: the two pandas columns `V` and `C`, row by row. -/
abbrev JV := List (ℚ × ℚ)

/-- The C helper `linear_search(key, arr, len, i0)`: walk from position `i`
while `key >= arr[i]`, return the last position visited minus one.  The list
argument is the remaining tail `arr.drop i`. -/
def lsearchAux (key : ℚ) : List ℚ → ℕ → ℕ
  | [], i => i - 1
  | a :: rest, i => if a ≤ key then lsearchAux key rest (i + 1) else i - 1

/-- The bisection loop of `binary_search_with_guess`: while `imin < imax`,
probe `imid = imin + (imax - imin)/2` and shrink the interval.  The interval
shrinks every step, so `arr.length + 1` units of fuel always suffice. -/
def bisectAux (key : ℚ) (arr : List ℚ) : ℕ → ℕ → ℕ → ℕ
  | 0, imin, _ => imin
  | fuel + 1, imin, imax =>
    if imin < imax then
      let imid := imin + (imax - imin) / 2
      if arr.getD imid 0 ≤ key then bisectAux key arr fuel (imid + 1) imax
      else bisectAux key arr fuel imin imid
    else imin

/-- numpy `binary_search_with_guess(key, arr, len, guess)` with `guess = 0`
(the script interpolates a single scalar, so the guess is never updated).
Returns a value in `[-1, len]`. -/
def binSearch (key : ℚ) (arr : List ℚ) : ℤ :=
  let len := arr.length
  if arr.getD (len - 1) 0 < key then (len : ℤ)
  else if key < arr.getD 0 0 then -1
  else if len ≤ 4 then (lsearchAux key (arr.drop 1) 1 : ℤ)
  else
    -- guess = 0 is clamped to 1; the three cache probes around it follow.
    -- The probe `key < arr[guess - 1]` cannot fire: `key >= arr[0]` holds here.
    if key < arr.getD 1 0 then 0
    else if key < arr.getD 2 0 then 1
    else if key < arr.getD 3 0 then 2
    else
      let imax := if (1 : ℤ) < (len : ℤ) - 9 ∧ key < arr.getD 9 0 then 9 else len
      (bisectAux key arr (len + 1) 3 imax : ℤ) - 1

/-- numpy `arr_interp` for one scalar `x` (no NaN inputs exist in ℚ).
`lval`/`rval` keep their defaults `fp[0]` and `fp[len-1]`.  With one sample
point every branch of the C code yields `fp[0]`. -/
def interpCore (x : ℚ) (xp fp : List ℚ) : ℚ :=
  if xp.length = 1 then fp.getD 0 0
  else
    let j := binSearch x xp
    if j = -1 then fp.getD 0 0
    else if j = (xp.length : ℤ) then fp.getD (fp.length - 1) 0
    else if j = (xp.length : ℤ) - 1 then fp.getD j.toNat 0
    else if xp.getD j.toNat 0 = x then fp.getD j.toNat 0
    else
      let jn := j.toNat
      (fp.getD (jn + 1) 0 - fp.getD jn 0) / (xp.getD (jn + 1) 0 - xp.getD jn 0)
          * (x - xp.getD jn 0) + fp.getD jn 0

/-- `numpy.interp(x, xp, fp)`: raises when the sample arrays are empty or of
different lengths, otherwise runs `arr_interp`. -/
def interpOpt (x : ℚ) (xp fp : List ℚ) : Option ℚ :=
  if xp.length = fp.length ∧ 1 ≤ xp.length then some (interpCore x xp fp) else none

/-- Round a rational to the nearest integer, ties to even: the rounding used
by Python `format(x, '.Nf')` (exact on our rational model of the floats). -/
def rhe (x : ℚ) : ℤ :=
  if x - ⌊x⌋ < 1 / 2 then ⌊x⌋
  else if (1 : ℚ) / 2 < x - ⌊x⌋ then ⌊x⌋ + 1
  else if ⌊x⌋ % 2 = 0 then ⌊x⌋ else ⌊x⌋ + 1

/-- Left-pad a digit string with zeros up to width `d`. -/
def padZeros (s : String) (d : ℕ) : String :=
  String.mk (List.replicate (d - s.length) '0') ++ s

/-- Python `format(x, '.df')`: fixed-point with `d` decimals, round half to
even, and the sign of the original value (so a small negative value prints
as `-0.00`, exactly as CPython does). -/
def fmtF (x : ℚ) (d : ℕ) : String :=
  let m := (rhe (|x| * (10 : ℚ) ^ d)).toNat
  (if x < 0 then "-" else "") ++ toString (m / 10 ^ d) ++
    (if d = 0 then "" else "." ++ padZeros (toString (m % 10 ^ d)) d)

/-- Lines 10-21 of `jvanalysis.py`: `fix_quadrant(jv, quadrant)`.  The `else`
branch prints a message and calls `exit()`, modelled as `none`. -/
def fix_quadrant (jv : JV) (quadrant : ℤ) : Option JV :=
  if quadrant = 2 then some (jv.map fun p => (-p.1, p.2))
  else if quadrant = 3 then some (jv.map fun p => (-p.1, -p.2))
  else if quadrant = 4 then some (jv.map fun p => (p.1, -p.2))
  else none

/-- Lines 176-178 of the main loop: `fix_quadrant` is only called when the
configured quadrant differs from 1. -/
def quadrantStep (jv : JV) (q : ℤ) : Option JV :=
  if q = 1 then some jv else fix_quadrant jv q

/-- The configuration fields the main loop reads while normalizing a sweep.
`currentIsJ` models `cfg['current'].upper() == 'J'`. -/
structure Config where
  quadrant : ℤ
  currentIsJ : Bool
  carea : ℚ
  ucurrent : ℤ
  uarea : ℤ
  uvoltage : ℤ

/-- Lines 176-187 of the main loop: quadrant fix, then current-to-density
division, then current-unit scaling, then voltage-unit scaling. -/
def normalizeSweep (cfg : Config) (jv : JV) : Option JV :=
  match quadrantStep jv cfg.quadrant with
  | none => none
  | some jv1 =>
    let jv2 := if cfg.currentIsJ then jv1 else jv1.map fun p => (p.1, p.2 / cfg.carea)
    let jv3 :=
      if cfg.ucurrent ≠ 0 ∨ cfg.uarea ≠ 0 then
        jv2.map fun p => (p.1, p.2 * (10 : ℚ) ^ cfg.ucurrent * (10 : ℚ) ^ (-cfg.uarea))
      else jv2
    some (if cfg.uvoltage ≠ 0 then jv3.map fun p => (p.1 * (10 : ℚ) ^ cfg.uvoltage, p.2) else jv3)

/-- A configuration that makes the whole normalization a no-op: quadrant 1,
current already a density, all unit exponents zero. -/
def idCfg : Config := ⟨1, true, 1, 0, 0, 0⟩

/-- `jv.iloc[i]['V']`: the voltage of row `i` (the script only ever reads
rows 0 and 1, after pandas would already have raised on a shorter table;
those failure paths are modelled where the accesses happen). -/
def sampleV (jv : JV) (i : ℕ) : ℚ := (jv.getD i (0, 0)).1

/-- `jv[jv['V'] == 0]`: the rows whose voltage is exactly zero. -/
def zeroVRows (jv : JV) : JV := jv.filter fun p => decide (p.1 = 0)

/-- The branch condition on line 37: `jv.iloc[0]['V'] < jv.iloc[1]['V']`,
read as: the sweep is a forward scan for the Jsc computation. -/
def jscForwardTest (jv : JV) : Prop := sampleV jv 0 < sampleV jv 1

/-- The branch condition on line 44: `jv.iloc[0]['V'] > jv.iloc[1]['V']`,
read as: the sweep is a reverse scan for the Voc computation. -/
def vocReverseTest (jv : JV) : Prop := sampleV jv 1 < sampleV jv 0

/-- Lines 30-40: the Jsc part of `get_parameters`.  If some row has `V == 0`
the code gathers every matching index and applies `float()` to the resulting
array, which succeeds only when there is exactly one match (a multi-element
array raises `TypeError`).  Otherwise it interpolates the current at `V = 0`,
reversing both columns when the first two voltages are not increasing; with
fewer than two rows the `iloc` access raises `IndexError` (`none`). -/
def jscOf (jv : JV) : Option ℚ :=
  if 0 ∈ jv.map Prod.fst then
    if (zeroVRows jv).length = 1 then some ((zeroVRows jv).headD (0, 0)).2 else none
  else if 2 ≤ jv.length then
    if sampleV jv 0 < sampleV jv 1 then
      interpOpt 0 (jv.map Prod.fst) (jv.map Prod.snd)
    else
      interpOpt 0 (jv.map Prod.fst).reverse (jv.map Prod.snd).reverse
  else none

/-- Lines 44-47: the Voc part of `get_parameters`: interpolate the voltage at
`C = 0`, reversing both columns unless the first two voltages are strictly
decreasing. -/
def vocOf (jv : JV) : Option ℚ :=
  if 2 ≤ jv.length then
    if sampleV jv 1 < sampleV jv 0 then
      interpOpt 0 (jv.map Prod.snd) (jv.map Prod.fst)
    else
      interpOpt 0 (jv.map Prod.snd).reverse (jv.map Prod.fst).reverse
  else none

/-- Line 49: `Wmax = numpy.amax(jv['V']*jv['C'])`; `amax` raises on an empty
array. -/
def wmaxOf (jv : JV) : Option ℚ :=
  match jv.map (fun p => p.1 * p.2) with
  | [] => none
  | w :: ws => some (ws.foldl max w)

/-- Lines 30-54 of `get_parameters`, stopping just before the `format` calls:
the unrounded values `(Voc, Jsc, FF, PCE)`.  In the source the FF division by
a zero `Jsc*Voc` yields a non-finite float; that degenerate quotient is not
relied on by any theorem below (ℚ division by zero gives the junk value 0). -/
def rawParams (jv : JV) : Option (ℚ × ℚ × ℚ × ℚ) :=
  match jscOf jv with
  | none => none
  | some Jsc =>
    match vocOf jv with
    | none => none
    | some Voc =>
      match wmaxOf jv with
      | none => none
      | some Wmax => some (Voc, Jsc, Wmax / (Jsc * Voc) * 100, Wmax / 1000)

/-- Lines 24-60: `get_parameters(jv)`, returning the four formatted strings
`(Voc, Jsc, FF, PCE)` exactly as the source does. -/
def get_parameters (jv : JV) : Option (String × String × String × String) :=
  match jscOf jv with
  | none => none
  | some Jsc =>
    match vocOf jv with
    | none => none
    | some Voc =>
      match wmaxOf jv with
      | none => none
      | some Wmax =>
        some (fmtF Voc 0, fmtF Jsc 2, fmtF (Wmax / (Jsc * Voc) * 100) 0, fmtF (Wmax / 1000) 2)

/-- Lines 64-68 of `jv_plot`: the metrics table is the placeholder row when
the PCE string is `"0.00"`, and the four computed strings otherwise. -/
def jv_plot_table (Voc Jsc FF PCE : String) : List (List String) :=
  if PCE ≠ "0.00" then [[Voc, Jsc, FF, PCE]] else [["----", "----", "----", "----"]]

/-- Lines 88-92 of `jv_datafile`: the metrics block written to the text file,
always built from the four strings it receives. -/
def jv_datafile_metrics (Voc Jsc FF PCE : String) : List String :=
  ["Main cell parameters:", "Voc (mV): " ++ Voc, "Jsc (mA cm-2): " ++ Jsc,
    "FF (%): " ++ FF, "PCE (%): " ++ PCE]

/-- The six-point example sweep of the specification. -/
def ex6 : JV := [(-50, 5), (0, 4.8), (50, 4), (100, 2), (150, 0), (200, -3)]

/-- The example sweep with its open-circuit point moved from 150 mV to
150.2 mV; every formatted output string coincides with the one of `ex6`. -/
def ex6b : JV := [(-50, 5), (0, 4.8), (50, 4), (100, 2), (150.2, 0), (200, -3)]

/-- A two-point sweep whose sample powers are all negative although both
Jsc and Voc are strictly positive. -/
def negPowerSweep : JV := [(-1, 3), (1, -2)]

/-- A two-point sweep whose PCE is exactly -0.001. -/
def darkishSweep : JV := [(-1, 2), (1, -1)]

/-- A forward-scanned but non-monotonic sweep whose reversal is again
classified as a forward scan by the first-two-samples heuristic. -/
def nonMonoSweep : JV := [(1, 2), (3, 1), (2, -1)]

/-- A sweep whose first two samples have the same voltage. -/
def eqVSweep : JV := [(1, 5), (1, 3), (2, -1)]

/-! ### Helper lemmas -/

theorem foldl_max_init_le (w : ℚ) (ws : List ℚ) : w ≤ ws.foldl max w := by
  induction ws generalizing w with
  | nil => exact le_refl w
  | cons a l ih => exact le_trans (le_max_left w a) (ih (max w a))

theorem mem_le_foldl_max (x w : ℚ) (ws : List ℚ) (h : x ∈ ws) : x ≤ ws.foldl max w := by
  induction ws generalizing w with
  | nil => cases h
  | cons a l ih =>
    rcases List.mem_cons.mp h with rfl | hl
    · exact le_trans (le_max_right w x) (foldl_max_init_le (max w x) l)
    · exact ih (max w a) hl

theorem wmax_upper (jv : JV) (w : ℚ) (hw : wmaxOf jv = some w)
    (q : ℚ × ℚ) (hq : q ∈ jv) : q.1 * q.2 ≤ w := by
  have hm : q.1 * q.2 ∈ jv.map fun p => p.1 * p.2 := List.mem_map_of_mem _ hq
  unfold wmaxOf at hw
  rcases he : jv.map fun p => p.1 * p.2 with _ | ⟨w0, ws⟩
  · rw [he] at hw; cases hw
  · rw [he] at hw hm
    have hw0 : w = ws.foldl max w0 := by
      injection hw with h1
      exact h1.symm
    rcases List.mem_cons.mp hm with heq | hmem
    · rw [hw0, heq]; exact foldl_max_init_le w0 ws
    · rw [hw0]; exact mem_le_foldl_max _ w0 ws hmem

/-! ### Claim theorems -/

/-- C1: on the six-point normalized sweep of the specification,
`get_parameters` takes Jsc = 4.8 directly from the sample at V = 0,
interpolates Voc = 150 mV between (100, 2.0) and (150, 0.0), finds
Wmax = 200 as the maximum of V·C over the samples, and returns the
formatted strings Voc = "150", Jsc = "4.80", FF = "28", PCE = "0.20". -/
theorem C1_end_to_end :
    jscOf ex6 = some 4.8 ∧ vocOf ex6 = some 150 ∧ wmaxOf ex6 = some 200 ∧
    get_parameters ex6 = some ("150", "4.80", "28", "0.20") := by
  with_unfolding_all decide

/-- C3: the main loop leaves a quadrant-1 sweep unchanged, quadrant 2
negates every voltage, quadrant 3 negates voltages and currents, quadrant 4
negates every current, and any quadrant outside {1, 2, 3, 4} aborts
processing (the configuration-error path of `fix_quadrant`), never
defaulting to quadrant 1. -/
theorem C3_quadrant_normalization (jv : JV) (q : ℤ) :
    quadrantStep jv 1 = some jv ∧
    quadrantStep jv 2 = some (jv.map fun p => (-p.1, p.2)) ∧
    quadrantStep jv 3 = some (jv.map fun p => (-p.1, -p.2)) ∧
    quadrantStep jv 4 = some (jv.map fun p => (p.1, -p.2)) ∧
    (q ≠ 1 → q ≠ 2 → q ≠ 3 → q ≠ 4 → quadrantStep jv q = none) := by
  refine ⟨?_, ?_, ?_, ?_, fun h1 h2 h3 h4 => ?_⟩
  · simp [quadrantStep]
  · norm_num [quadrantStep, fix_quadrant]
  · norm_num [quadrantStep, fix_quadrant]
  · norm_num [quadrantStep, fix_quadrant]
  · simp [quadrantStep, fix_quadrant, h1, h2, h3, h4]

/-- C3 witness: quadrant 5 on a concrete sweep aborts processing. -/
theorem C3_quadrant_normalization_witness :
    quadrantStep [((1 : ℚ), (2 : ℚ))] 5 = none :=
  (C3_quadrant_normalization [((1 : ℚ), (2 : ℚ))] 5).2.2.2.2
    (by decide) (by decide) (by decide) (by decide)

/-- C6 counterexample: with PCE string "0.00" the plot table is replaced by
the placeholder row, but the text file metrics block still contains the
computed strings (the placeholder never reaches `jv_datafile`), contrary to
the claim that both outputs show the placeholder. -/
theorem C6_counterexample :
    jv_plot_table "0" "0.00" "0" "0.00" = [["----", "----", "----", "----"]] ∧
    jv_datafile_metrics "0" "0.00" "0" "0.00" =
      ["Main cell parameters:", "Voc (mV): 0", "Jsc (mA cm-2): 0.00",
        "FF (%): 0", "PCE (%): 0.00"] ∧
    "PCE (%): ----" ∉ jv_datafile_metrics "0" "0.00" "0" "0.00" := by
  with_unfolding_all decide

/-- C6 (amended): only the plot metrics table is replaced by the placeholder
row, and that happens exactly when the PCE string equals "0.00"; the text
file metrics block always contains the computed strings. -/
theorem C6_placeholder (v j f p : String) :
    (p = "0.00" → jv_plot_table v j f p = [["----", "----", "----", "----"]]) ∧
    (p ≠ "0.00" → jv_plot_table v j f p = [[v, j, f, p]]) ∧
    ("Voc (mV): " ++ v) ∈ jv_datafile_metrics v j f p ∧
    ("PCE (%): " ++ p) ∈ jv_datafile_metrics v j f p := by
  refine ⟨fun h => ?_, fun h => ?_, ?_, ?_⟩
  · simp [jv_plot_table, h]
  · simp [jv_plot_table, h]
  · simp [jv_datafile_metrics]
  · simp [jv_datafile_metrics]

/-- C6 witness: the placeholder branch fires on PCE "0.00" and the computed
branch fires on PCE "0.20". -/
theorem C6_placeholder_witness :
    jv_plot_table "0" "0.00" "0" "0.00" = [["----", "----", "----", "----"]] ∧
    jv_plot_table "150" "4.80" "28" "0.20" = [["150", "4.80", "28", "0.20"]] :=
  ⟨(C6_placeholder "0" "0.00" "0" "0.00").1 rfl,
    (C6_placeholder "150" "4.80" "28" "0.20").2.1 (by decide)⟩

/-- C10: a sweep with computed PCE = -0.001 formats as the string "-0.00",
which differs from "0.00", so the plot table shows the computed metric
strings rather than the dark-scan placeholder. -/
theorem C10_negative_pce :
    rawParams darkishSweep = some (1/3, 1/2, -600, -1/1000) ∧
    get_parameters darkishSweep = some ("0", "0.50", "-600", "-0.00") ∧
    "-0.00" ≠ "0.00" ∧
    jv_plot_table "0" "0.50" "-600" "-0.00" = [["0", "0.50", "-600", "-0.00"]] := by
  with_unfolding_all decide

/-- C2 counterexample: a sweep with two samples at V = 0 does not return the
first matching current (which would be `some 1`); the `float()` conversion
of the two-element array raises, so `get_parameters` fails. -/
theorem C2_counterexample :
    jscOf [((0 : ℚ), (1 : ℚ)), (0, 2), (5, -1)] = none ∧
    jscOf [((0 : ℚ), (1 : ℚ)), (0, 2), (5, -1)] ≠ some 1 := by
  with_unfolding_all decide

/-- C2 (amended): when exactly one sample has V = 0, Jsc is that sample's
current taken directly, with no interpolation; when several samples have
V = 0, the extraction fails (`float()` on a multi-element array) instead of
the first matching index winning. -/
theorem C2_jsc_exact (jv : JV) (p : ℚ × ℚ) :
    (zeroVRows jv = [p] → jscOf jv = some p.2) ∧
    (2 ≤ (zeroVRows jv).length → jscOf jv = none) := by
  constructor
  · intro h
    have hp : p ∈ zeroVRows jv := by rw [h]; simp
    have hpz : p.1 = 0 := of_decide_eq_true (List.mem_filter.mp hp).2
    have hmem : (0 : ℚ) ∈ jv.map Prod.fst :=
      List.mem_map.mpr ⟨p, (List.mem_filter.mp hp).1, hpz⟩
    simp only [jscOf, if_pos hmem, h]
    simp
  · intro h
    have hne : zeroVRows jv ≠ [] := by
      intro he
      rw [he] at h
      simp at h
    obtain ⟨q, hq⟩ := List.exists_mem_of_ne_nil _ hne
    have hqz : q.1 = 0 := of_decide_eq_true (List.mem_filter.mp hq).2
    have hmem : (0 : ℚ) ∈ jv.map Prod.fst :=
      List.mem_map.mpr ⟨q, (List.mem_filter.mp hq).1, hqz⟩
    simp only [jscOf, if_pos hmem]
    rw [if_neg (by omega)]

/-- C2 witness: a unique V = 0 sample yields its current directly, and a
duplicated V = 0 sample makes the extraction fail. -/
theorem C2_jsc_exact_witness :
    jscOf [((0 : ℚ), (4.8 : ℚ)), (1, 2)] = some 4.8 ∧
    jscOf [((0 : ℚ), (1 : ℚ)), (0, 2)] = none :=
  ⟨(C2_jsc_exact [((0 : ℚ), (4.8 : ℚ)), (1, 2)] ((0 : ℚ), (4.8 : ℚ))).1
      (by with_unfolding_all decide),
    (C2_jsc_exact [((0 : ℚ), (1 : ℚ)), (0, 2)] ((0 : ℚ), (1 : ℚ))).2
      (by with_unfolding_all decide)⟩

/-- C8 counterexample: a one-sample sweep is not rejected before
normalization; normalization completes and the failure only happens inside
`get_parameters` (the `iloc` access to the second sample), so no
`MalformedSweepError`-style early rejection exists. -/
theorem C8_counterexample :
    normalizeSweep idCfg [((5 : ℚ), (1 : ℚ))] ≠ none ∧
    get_parameters [((5 : ℚ), (1 : ℚ))] = none := by
  with_unfolding_all decide

/-- C8 (amended): the script has no malformed-sweep validation: a sweep with
fewer than two samples passes the whole normalization untouched and only
fails afterwards, inside `get_parameters` (non-numeric data never reaches
this code at all, because the pandas reader is asked for `float64` columns
and raises while parsing the file). -/
theorem C8_short_sweep (jv : JV) (h : jv.length < 2) :
    normalizeSweep idCfg jv = some jv ∧ get_parameters jv = none := by
  constructor
  · simp [normalizeSweep, quadrantStep, idCfg]
  · rcases jv with _ | ⟨p, _ | ⟨q, rest⟩⟩
    · with_unfolding_all decide
    · by_cases hp : p.1 = 0
      · have hv : vocOf [p] = none := by simp [vocOf]
        have hj : jscOf [p] = some p.2 := by simp [jscOf, zeroVRows, hp]
        simp [get_parameters, hj, hv]
      · have hj : jscOf [p] = none := by simp [jscOf, zeroVRows, hp]
        simp [get_parameters, hj]
    · exfalso
      simp at h
      omega

/-- C8 witness: the no-op normalization and in-extractor failure on a
concrete one-sample sweep. -/
theorem C8_short_sweep_witness :
    normalizeSweep idCfg [((7 : ℚ), (2 : ℚ))] = some [((7 : ℚ), (2 : ℚ))] ∧
    get_parameters [((7 : ℚ), (2 : ℚ))] = none :=
  C8_short_sweep [((7 : ℚ), (2 : ℚ))] (by decide)

/-- C9: when the first two voltage samples are equal, the Jsc branch treats
the sweep as a reverse scan (its forward test fails, so both columns are
reversed before interpolating the current at V = 0) while the Voc branch
treats the very same sweep as a forward scan (its reverse test fails, so it
also reverses both columns before interpolating the voltage at C = 0) —
contradictory scan-direction classifications of one sweep. -/
theorem C9_equal_first_voltages (jv : JV) (h2 : 2 ≤ jv.length)
    (he : sampleV jv 0 = sampleV jv 1) :
    ¬ jscForwardTest jv ∧ ¬ vocReverseTest jv ∧
    (0 ∉ jv.map Prod.fst →
      jscOf jv = interpOpt 0 (jv.map Prod.fst).reverse (jv.map Prod.snd).reverse) ∧
    vocOf jv = interpOpt 0 (jv.map Prod.snd).reverse (jv.map Prod.fst).reverse := by
  have hnlt1 : ¬ sampleV jv 0 < sampleV jv 1 := by rw [he]; exact lt_irrefl _
  have hnlt2 : ¬ sampleV jv 1 < sampleV jv 0 := by rw [he]; exact lt_irrefl _
  refine ⟨hnlt1, hnlt2, fun h0 => ?_, ?_⟩
  · unfold jscOf
    rw [if_neg h0, if_pos h2, if_neg hnlt1]
  · unfold vocOf
    rw [if_pos h2, if_neg hnlt2]

/-- C9 witness: the contradictory classification on a concrete sweep with
two equal leading voltages. -/
theorem C9_equal_first_voltages_witness :
    ¬ jscForwardTest eqVSweep ∧ ¬ vocReverseTest eqVSweep ∧
    jscOf eqVSweep =
      interpOpt 0 (eqVSweep.map Prod.fst).reverse (eqVSweep.map Prod.snd).reverse ∧
    vocOf eqVSweep =
      interpOpt 0 (eqVSweep.map Prod.snd).reverse (eqVSweep.map Prod.fst).reverse := by
  have h := C9_equal_first_voltages eqVSweep (by with_unfolding_all decide)
    (by with_unfolding_all decide)
  exact ⟨h.1, h.2.1, h.2.2.1 (by with_unfolding_all decide), h.2.2.2⟩

/-- C4 counterexample: a forward-scanned (first voltage below the second)
but non-monotonic sweep whose reversal the first-two-samples heuristic again
classifies as forward: Jsc and Voc of the reversed sweep both differ from
the originals, refuting the unconditional reversal symmetry. -/
theorem C4_counterexample :
    sampleV nonMonoSweep 0 < sampleV nonMonoSweep 1 ∧
    jscOf nonMonoSweep = some 2 ∧
    jscOf nonMonoSweep.reverse = some (-1) ∧
    vocOf nonMonoSweep = some (5 / 2) ∧
    vocOf nonMonoSweep.reverse = some 2 ∧
    jscOf nonMonoSweep.reverse ≠ jscOf nonMonoSweep ∧
    vocOf nonMonoSweep.reverse ≠ vocOf nonMonoSweep := by
  with_unfolding_all decide

/-- C4 (amended): for a forward-scanned sweep whose reversal is detected as
a reverse scan by the first-two-samples heuristic (that is, the last two
voltages are also increasing — automatic for a monotone forward sweep),
reversing the sample order leaves both Jsc and Voc unchanged. -/
theorem C4_reverse_scan (jv : JV) (h2 : 2 ≤ jv.length)
    (hf : sampleV jv 0 < sampleV jv 1)
    (hr : sampleV jv.reverse 1 < sampleV jv.reverse 0) :
    jscOf jv.reverse = jscOf jv ∧ vocOf jv.reverse = vocOf jv := by
  have h2r : 2 ≤ jv.reverse.length := by simpa using h2
  have hfn : ¬ sampleV jv 1 < sampleV jv 0 := lt_asymm hf
  have hrn : ¬ sampleV jv.reverse 0 < sampleV jv.reverse 1 := lt_asymm hr
  constructor
  · by_cases hz : (0 : ℚ) ∈ jv.map Prod.fst
    · have hz' : (0 : ℚ) ∈ jv.reverse.map Prod.fst := by
        rw [List.map_reverse, List.mem_reverse]
        exact hz
      have hzr : zeroVRows jv.reverse = (zeroVRows jv).reverse := by
        simp [zeroVRows, List.filter_reverse]
      unfold jscOf
      rw [if_pos hz, if_pos hz', hzr, List.length_reverse]
      by_cases h1 : (zeroVRows jv).length = 1
      · rw [if_pos h1, if_pos h1]
        obtain ⟨a, ha⟩ := List.length_eq_one.mp h1
        rw [ha]
        rfl
      · rw [if_neg h1, if_neg h1]
    · have hz' : (0 : ℚ) ∉ jv.reverse.map Prod.fst := by
        rw [List.map_reverse, List.mem_reverse]
        exact hz
      unfold jscOf
      rw [if_neg hz, if_neg hz', if_pos h2, if_pos h2r, if_pos hf, if_neg hrn,
        List.map_reverse, List.map_reverse, List.reverse_reverse, List.reverse_reverse]
  · unfold vocOf
    rw [if_pos h2, if_pos h2r, if_neg hfn, if_pos hr, List.map_reverse, List.map_reverse]

/-- C4 witness: reversal symmetry on the monotone six-point example sweep. -/
theorem C4_reverse_scan_witness :
    jscOf ex6.reverse = jscOf ex6 ∧ vocOf ex6.reverse = vocOf ex6 :=
  C4_reverse_scan ex6 (by with_unfolding_all decide) (by with_unfolding_all decide)
    (by with_unfolding_all decide)

/-- C5 counterexample: a sweep with Jsc = 1/2 > 0 and Voc = 1/5 > 0 whose
sample powers are all negative, so FF = -2000 and PCE = -1/500 are both
negative, refuting unconditional non-negativity. -/
theorem C5_counterexample :
    rawParams negPowerSweep = some (1 / 5, 1 / 2, -2000, -1 / 500) ∧
    (0 : ℚ) < 1 / 2 ∧ (0 : ℚ) < 1 / 5 ∧ (-2000 : ℚ) < 0 ∧ (-1 / 500 : ℚ) < 0 := by
  with_unfolding_all decide

/-- C5 (amended): when the extracted Jsc and Voc are strictly positive, FF
and PCE are well defined (the FF denominator Jsc·Voc is nonzero), and they
are non-negative provided some sample has non-negative power V·C — in
particular whenever a sample with V = 0 exists. -/
theorem C5_ff_pce_nonneg (jv : JV) (v j f p : ℚ)
    (h : rawParams jv = some (v, j, f, p)) (hj : 0 < j) (hv : 0 < v)
    (hw : ∃ q ∈ jv, 0 ≤ q.1 * q.2) :
    0 ≤ f ∧ 0 ≤ p ∧ j * v ≠ 0 := by
  obtain ⟨q, hq, hq0⟩ := hw
  unfold rawParams at h
  rcases hjs : jscOf jv with _ | J
  · rw [hjs] at h; cases h
  rcases hvo : vocOf jv with _ | V
  · rw [hjs, hvo] at h; cases h
  rcases hwm : wmaxOf jv with _ | W
  · rw [hjs, hvo, hwm] at h; cases h
  rw [hjs, hvo, hwm] at h
  simp only [Option.some.injEq, Prod.mk.injEq] at h
  obtain ⟨h1, h2, h3, h4⟩ := h
  have hW : 0 ≤ W := le_trans hq0 (wmax_upper jv W hwm q hq)
  have hjv : 0 < j * v := mul_pos hj hv
  refine ⟨?_, ?_, ne_of_gt hjv⟩
  · rw [← h3, h1, h2]
    exact mul_nonneg (div_nonneg hW (le_of_lt hjv)) (by norm_num)
  · rw [← h4]
    exact div_nonneg hW (by norm_num)

/-- C5 witness: on the six-point example sweep Jsc and Voc are positive, the
V = 0 sample has non-negative power, and FF = 250/9 and PCE = 1/5 come out
non-negative with a nonzero FF denominator. -/
theorem C5_ff_pce_nonneg_witness :
    rawParams ex6 = some (150, 4.8, 250 / 9, 1 / 5) ∧
    (0 ≤ (250 / 9 : ℚ) ∧ 0 ≤ (1 / 5 : ℚ) ∧ (4.8 : ℚ) * 150 ≠ 0) :=
  ⟨by with_unfolding_all decide,
    C5_ff_pce_nonneg ex6 150 4.8 (250 / 9) (1 / 5) (by with_unfolding_all decide)
      (by with_unfolding_all decide) (by with_unfolding_all decide)
      ⟨(0, 4.8), by with_unfolding_all decide, by with_unfolding_all decide⟩⟩

/-- C7 counterexample: two sweeps with different unrounded Voc and FF values
produce the same four returned strings, so the unrounded floats are not
available to a consumer of `get_parameters` — the function formats them
in place and returns only the strings. -/
theorem C7_counterexample :
    get_parameters ex6b = get_parameters ex6 ∧
    rawParams ex6b ≠ rawParams ex6 ∧
    get_parameters ex6 = some ("150", "4.80", "28", "0.20") := by
  with_unfolding_all decide

/-- C7 (amended): the rounding (Voc to 0 decimals, Jsc to 2, FF to 0, PCE to
2) happens inside `get_parameters` itself, which returns exactly the
formatted strings of the unrounded values and discards the values. -/
theorem C7_rounding (jv : JV) (v j f p : ℚ)
    (h : rawParams jv = some (v, j, f, p)) :
    get_parameters jv = some (fmtF v 0, fmtF j 2, fmtF f 0, fmtF p 2) := by
  unfold rawParams at h
  rcases hjs : jscOf jv with _ | J
  · rw [hjs] at h; cases h
  rcases hvo : vocOf jv with _ | V
  · rw [hjs, hvo] at h; cases h
  rcases hwm : wmaxOf jv with _ | W
  · rw [hjs, hvo, hwm] at h; cases h
  rw [hjs, hvo, hwm] at h
  simp only [Option.some.injEq, Prod.mk.injEq] at h
  obtain ⟨h1, h2, h3, h4⟩ := h
  unfold get_parameters
  rw [hjs, hvo, hwm]
  dsimp only
  subst h1
  subst h2
  rw [h3, h4]

/-- C7 witness: the formatted-string relation instantiated on the six-point
example sweep. -/
theorem C7_rounding_witness :
    get_parameters ex6 = some (fmtF 150 0, fmtF 4.8 2, fmtF (250 / 9) 0, fmtF (1 / 5) 2) :=
  C7_rounding ex6 150 4.8 (250 / 9) (1 / 5) (by with_unfolding_all decide)
